import Mathlib

/-!
Verification development for the ThryveIQ triathlon-coaching backend.

The deterministic core of the repository is shallowly embedded here:

* `backend/services/phases.py`       → `calculate_phases`
* `backend/services/plan_engine.py`  → `_weeks_until_race`, `_assign_zone`,
  `_distribute_sports`, `_compute_week_durations`, `generate_plan`
* `backend/services/tools/compute_zones.py` → `_parse_pace_to_seconds`,
  `_seconds_to_pace`, `compute_zones_math`

Modelling conventions:
* Python `float` arithmetic is modelled over exact rationals (`ℚ`).  All
  quantities appearing in the code are small decimal fractions, where the
  exact-rational results coincide with the IEEE-double results (this was
  checked numerically for the input ranges used by the theorems below).
* Python `round` (banker's rounding, half to even) is `pyRound`.
* Calendar dates are modelled by their integer day number; `d2 - d1` is the
  `.days` of the Python `timedelta`, and Python's floor division `//` is
  `Int.fdiv`.
* Fallible code (Python `raise ValueError`) returns `Option` (`none` = error).
-/

namespace ThryveIQ

/-- Python's `round` on an exact rational value: round half to even. -/
def pyRound (q : ℚ) : ℤ :=
  let f : ℤ := ⌊q⌋
  let frac : ℚ := q - f
  if frac < 1/2 then f
  else if 1/2 < frac then f + 1
  else if f % 2 = 0 then f else f + 1

theorem pyRound_le (q : ℚ) : (pyRound q : ℚ) ≤ q + 1/2 := by
  unfold pyRound
  dsimp only
  have h0 := Int.floor_le q
  have h1 := Int.sub_one_lt_floor q
  split_ifs with hf hg he
  · linarith
  · push_cast; linarith
  · linarith
  · push_cast
    have : q - (⌊q⌋ : ℚ) = 1/2 := le_antisymm (not_lt.mp hg) (not_lt.mp hf)
    linarith

theorem le_pyRound (q : ℚ) : q - 1/2 ≤ (pyRound q : ℚ) := by
  unfold pyRound
  dsimp only
  have h0 := Int.floor_le q
  have h1 := Int.sub_one_lt_floor q
  split_ifs with hf hg he
  · linarith
  · push_cast; linarith
  · linarith
  · push_cast; linarith

theorem pyRound_lt_pyRound {x y : ℚ} (h : x + 1 < y) : pyRound x < pyRound y := by
  have hx := pyRound_le x
  have hy := le_pyRound y
  have : (pyRound x : ℚ) < (pyRound y : ℚ) := by linarith
  exact_mod_cast this

theorem pyRound_intCast (n : ℤ) : pyRound (n : ℚ) = n := by
  unfold pyRound
  simp [Int.floor_intCast]

/-! ## `backend/services/phases.py` -/

/-- One entry of the list returned by `calculate_phases`
(a Python dict `{name, weeks, start_week, end_week, focus}`). -/
structure Phase where
  name : String
  weeks : ℤ
  start_week : ℤ
  end_week : ℤ
  focus : String
deriving Repr, DecidableEq

/-- The layout loop of `calculate_phases`: walk the `(name, length, focus)`
triples, assigning contiguous `start_week`/`end_week` spans. -/
def layoutPhases : ℤ → List (String × ℤ × String) → List Phase
  | _, [] => []
  | week, (name, length, focus) :: rest =>
      ⟨name, length, week, week + length - 1, focus⟩ :: layoutPhases (week + length) rest

/-- `calculate_phases(race_date_str)` from `backend/services/phases.py`.
Dates are day numbers; `today` is passed explicitly
(the Python reads `date.today()`). -/
def calculate_phases (race_date today : ℤ) : List Phase :=
  let total_weeks : ℤ := max 1 ((race_date - today).fdiv 7)
  if total_weeks ≤ 4 then
    [⟨"Base", max 1 (total_weeks - 1), 1, max 1 (total_weeks - 1),
       "Build aerobic fitness and technique"⟩,
     ⟨"Taper", 1, total_weeks, total_weeks,
       "Reduce volume, stay sharp for race day"⟩]
  else if total_weeks ≤ 8 then
    let taper : ℤ := 1
    let build : ℤ := max 2 (total_weeks.fdiv 3)
    let base : ℤ := total_weeks - build - taper
    layoutPhases 1
      [("Base", base, "Build aerobic endurance and technique foundations"),
       ("Build", build, "Increase intensity, add race-pace work and longer sessions"),
       ("Taper", taper, "Reduce volume, maintain intensity, prepare for race day")]
  else
    let taper : ℤ := 2
    let peak : ℤ := min 3 (max 2 (total_weeks.fdiv 8))
    let remaining : ℤ := total_weeks - taper - peak
    let build : ℤ := max 3 (pyRound ((remaining : ℚ) * (4/10)))
    let base : ℤ := remaining - build
    layoutPhases 1
      [("Base", base, "Build aerobic endurance, technique, and consistency across all three disciplines"),
       ("Build", build, "Increase intensity and volume progressively, add race-specific workouts"),
       ("Peak", peak, "Highest intensity block, race simulations, fine-tune pacing"),
       ("Taper", taper, "Reduce volume by 40-60%, maintain intensity, rest and prepare for race day")]

theorem layoutPhases_weeks_sum (w : ℤ) (l : List (String × ℤ × String)) :
    ((layoutPhases w l).map (fun ph => ph.weeks)).sum = (l.map (fun x => x.2.1)).sum := by
  induction l generalizing w with
  | nil => rfl
  | cons hd tl ih =>
      obtain ⟨n, len, f⟩ := hd
      simp [layoutPhases, ih]

/-- Claim C1 (counterexample): when the race is 0 days away, weeks-until-race
is `max(1, 0 // 7) = 1`, yet `calculate_phases` takes the `total_weeks <= 4`
branch and returns Base (1 week) + Taper (1 week), whose week counts sum to 2,
not 1.  So the phase week counts do not sum to weeks-until-race for W = 1. -/
theorem calculate_phases_sum_counterexample :
    ((calculate_phases 0 0).map (fun ph => ph.weeks)).sum = 2 ∧
      max 1 (((0 : ℤ) - 0).fdiv 7) = 1 := by
  constructor
  · rfl
  · rfl

/-- Claim C1 (amended): for every race date and "today", the week counts of
the phases returned by `calculate_phases` sum to `max 2 W`, where
`W = max 1 ((race_date - today) // 7)` is weeks-until-race.  In particular the
sum equals W exactly for every W ≥ 2, and equals 2 (not 1) when W = 1. -/
theorem calculate_phases_weeks_sum (race_date today : ℤ) :
    ((calculate_phases race_date today).map (fun ph => ph.weeks)).sum =
      max 2 (max 1 ((race_date - today).fdiv 7)) := by
  unfold calculate_phases
  dsimp only
  set W : ℤ := max 1 ((race_date - today).fdiv 7) with hW
  have hW1 : 1 ≤ W := le_max_left _ _
  split_ifs with h4 h8
  · simp only [List.map_cons, List.map_nil, List.sum_cons, List.sum_nil]
    omega
  · rw [layoutPhases_weeks_sum]
    simp only [List.map_cons, List.map_nil, List.sum_cons, List.sum_nil]
    generalize max 2 (W.fdiv 3) = b
    omega
  · rw [layoutPhases_weeks_sum]
    simp only [List.map_cons, List.map_nil, List.sum_cons, List.sum_nil]
    generalize hp : min 3 (max 2 (W.fdiv 8)) = p
    generalize max 3 (pyRound ((W - 2 - p : ℤ) * (4/10) : ℚ)) = b
    omega

/-! ## `backend/services/tools/compute_zones.py` -/

/-- Python's built-in `int(str)`: optional surrounding whitespace, optional
sign, then decimal digits.  (Underscore digit grouping is not modelled; no
input in this development uses it.)  `none` models `ValueError`. -/
def pyInt (s : String) : Option ℤ :=
  let t := s.trim
  if t.startsWith "-" then (t.drop 1).toNat?.map (fun n => -(n : ℤ))
  else if t.startsWith "+" then (t.drop 1).toNat?.map (fun n => (n : ℤ))
  else t.toNat?.map (fun n => (n : ℤ))

/-- `_parse_pace_to_seconds(pace)`: strip, split on `":"`, require exactly two
fields, convert each with `int(...)`, return `minutes*60 + seconds`.
`none` models the raised `ValueError`. -/
def _parse_pace_to_seconds (pace : String) : Option ℤ :=
  let p := pace.trim
  match p.splitOn ":" with
  | [a, b] =>
      match pyInt a, pyInt b with
      | some minutes, some seconds => some (minutes * 60 + seconds)
      | _, _ => none
  | _ => none

/-- Zero-padding of Python's `f"{s:02d}"` for the second field. -/
def zfill2 (n : ℤ) : String :=
  if 0 ≤ n ∧ n < 10 then "0" ++ toString n else toString n

/-- `_seconds_to_pace(seconds)`: `f"{seconds // 60}:{seconds % 60:02d}"`. -/
def _seconds_to_pace (seconds : ℤ) : String :=
  let m := seconds.fdiv 60
  let s := seconds.fmod 60
  toString m ++ ":" ++ zfill2 s

/-- One HR / power zone dict: `{label, min, max}` (`None` = open end). -/
structure ZoneEntry where
  label : String
  min : Option ℤ
  max : Option ℤ
deriving Repr, DecidableEq

/-- One pace zone dict: `{label, min_pace, max_pace}` (`None` = open end). -/
structure PaceEntry where
  label : String
  min_pace : Option String
  max_pace : Option String
deriving Repr, DecidableEq

/-- The dict returned by `compute_zones_math` (three zone tables, keyed
`"Z1"`..`"Z5"` in insertion order, plus the echoed inputs). -/
structure ZoneTables where
  power_zones : List (String × ZoneEntry)
  hr_zones : List (String × ZoneEntry)
  pace_zones : List (String × PaceEntry)
  inputs_ftp : ℤ
  inputs_lthr : ℤ
  inputs_css : String
deriving Repr, DecidableEq

instance : Inhabited ZoneTables := ⟨⟨[], [], [], 0, 0, ""⟩⟩

/-- The `hr_zones` dict literal of `compute_zones_math` (5-zone model
anchored at LTHR). -/
def hrZonesOf (lthr : ℤ) : List (String × ZoneEntry) :=
  [("Z1", ⟨"Recovery", none, some (pyRound ((lthr : ℚ) * (84/100)))⟩),
   ("Z2", ⟨"Aerobic", some (pyRound ((lthr : ℚ) * (85/100))), some (pyRound ((lthr : ℚ) * (89/100)))⟩),
   ("Z3", ⟨"Tempo", some (pyRound ((lthr : ℚ) * (90/100))), some (pyRound ((lthr : ℚ) * (94/100)))⟩),
   ("Z4", ⟨"Threshold", some (pyRound ((lthr : ℚ) * (95/100))), some (pyRound ((lthr : ℚ) * (99/100)))⟩),
   ("Z5", ⟨"VO2max", some (pyRound ((lthr : ℚ) * (100/100))), none⟩)]

/-- The `power_zones` dict literal of `compute_zones_math` (Coggan model
anchored at FTP). -/
def powerZonesOf (ftp : ℤ) : List (String × ZoneEntry) :=
  [("Z1", ⟨"Recovery", none, some (pyRound ((ftp : ℚ) * (55/100)))⟩),
   ("Z2", ⟨"Endurance", some (pyRound ((ftp : ℚ) * (56/100))), some (pyRound ((ftp : ℚ) * (75/100)))⟩),
   ("Z3", ⟨"Tempo", some (pyRound ((ftp : ℚ) * (76/100))), some (pyRound ((ftp : ℚ) * (90/100)))⟩),
   ("Z4", ⟨"Threshold", some (pyRound ((ftp : ℚ) * (91/100))), some (pyRound ((ftp : ℚ) * (105/100)))⟩),
   ("Z5", ⟨"VO2max+", some (pyRound ((ftp : ℚ) * (106/100))), none⟩)]

/-- The `pace_zones` dict literal of `compute_zones_math` (anchored at the
parsed CSS seconds; `css` is the original string, used verbatim as Z4's
`max_pace`). -/
def paceZonesOf (css_sec : ℤ) (css : String) : List (String × PaceEntry) :=
  [("Z1", ⟨"Recovery", none, some (_seconds_to_pace (pyRound ((css_sec : ℚ) * (125/100))))⟩),
   ("Z2", ⟨"Aerobic", some (_seconds_to_pace (pyRound ((css_sec : ℚ) * (125/100)))),
      some (_seconds_to_pace (pyRound ((css_sec : ℚ) * (110/100))))⟩),
   ("Z3", ⟨"Tempo", some (_seconds_to_pace (pyRound ((css_sec : ℚ) * (110/100)))),
      some (_seconds_to_pace (pyRound ((css_sec : ℚ) * (100/100))))⟩),
   ("Z4", ⟨"Threshold", some (_seconds_to_pace (pyRound ((css_sec : ℚ) * (105/100)))), some css⟩),
   ("Z5", ⟨"VO2max", some (_seconds_to_pace (pyRound ((css_sec : ℚ) * (95/100)))), none⟩)]

/-- `compute_zones_math(ftp, lthr, css)`: substitute defaults for absent
benchmarks (`lthr <= 0` → 155, `ftp <= 0` → 200, falsy/blank `css` → "5:00"),
build the three tables, echo the (defaulted) inputs.  `none` models the
`ValueError` propagated from `_parse_pace_to_seconds`. -/
def compute_zones_math (ftp lthr : ℤ) (css : String) : Option ZoneTables :=
  let lthr2 := if lthr ≤ 0 then 155 else lthr
  let hr_zones := hrZonesOf lthr2
  let ftp2 := if ftp ≤ 0 then 200 else ftp
  let power_zones := powerZonesOf ftp2
  let css2 := if css = "" ∨ css.trim = "" then "5:00" else css
  match _parse_pace_to_seconds css2 with
  | none => none
  | some css_sec =>
      some ⟨power_zones, hr_zones, paceZonesOf css_sec css2, ftp2, lthr2, css2⟩

/-! ## `backend/services/plan_engine.py` -/

def DAYS_OF_WEEK : List String :=
  ["Monday", "Tuesday", "Wednesday", "Thursday", "Friday", "Saturday", "Sunday"]

/-- The `ZONE_LABELS` dict (keys 1..5). -/
def ZONE_LABELS : List (ℤ × String) :=
  [(1, "Recovery"), (2, "Aerobic"), (3, "Tempo"), (4, "Threshold"), (5, "VO2max")]

/-- The `PLACEHOLDER_DESCRIPTIONS` dict, keyed by `(sport, zone)`. -/
def PLACEHOLDER_DESCRIPTIONS : List ((String × ℤ) × String) :=
  [(("swim", 1), "Easy recovery swim. Focus on smooth technique and relaxed breathing."),
   (("swim", 2), "Aerobic swim. Focus on bilateral breathing and a long catch. Keep effort conversational."),
   (("swim", 3), "Tempo swim. Maintain steady effort with good form. Push pace slightly above comfortable."),
   (("swim", 4), "Threshold swim intervals. Hard effort with structured rest. Focus on holding pace."),
   (("swim", 5), "VO2max swim set. Short, fast repeats with full recovery between efforts."),
   (("bike", 1), "Easy recovery spin. Keep cadence light and legs loose."),
   (("bike", 2), "Aerobic endurance ride. Steady effort, should be able to hold a conversation."),
   (("bike", 3), "Tempo ride. Maintain steady power in Zone 3. Practice race-day nutrition."),
   (("bike", 4), "Threshold intervals on the bike. Sustained hard effort near FTP."),
   (("bike", 5), "VO2max bike intervals. Short, maximal efforts with recovery between."),
   (("run", 1), "Easy recovery jog. Keep it very relaxed, walk breaks are fine."),
   (("run", 2), "Easy aerobic run. Conversational pace, focus on cadence ~170-180 spm."),
   (("run", 3), "Tempo run. Comfortably hard effort, steady pace throughout."),
   (("run", 4), "Threshold run intervals. Hard effort at lactate threshold pace."),
   (("run", 5), "VO2max run repeats. Fast intervals with full recovery.")]

/-- `_weeks_until_race(race_date)`: `max(1, (race_date - today).days // 7)`;
`today` passed explicitly.  The result is at least 1, hence a `ℕ`. -/
def _weeks_until_race (race_date today : ℤ) : ℕ :=
  (max 1 ((race_date - today).fdiv 7)).toNat

/-- `_assign_zone(session_index, total_sessions, is_recovery_week)`. -/
def _assign_zone (session_index total_sessions : ℕ) (is_recovery_week : Bool) : ℤ :=
  if is_recovery_week then
    if session_index % 3 = 0 then 1 else 2
  else
    let ratio : ℚ := (session_index : ℚ) / (max total_sessions 1 : ℕ)
    if ratio < 70/100 then 2
    else if ratio < 90/100 then 3
    else 4

/-- The key list of a Python dict literal, in insertion order: a duplicated
key keeps its first position (later occurrences merge into the same entry).
Used for `buckets = {weakest: [], middle: [], strongest: []}`, whose keys
collapse to two when `weakest == strongest`. -/
def pyDictKeys : List String → List String
  | [] => []
  | k :: rest => k :: (pyDictKeys rest).filter (fun x => x ≠ k)

/-- One visit of the interleaving loop's body:
`if buckets[key]: result.append(buckets[key].pop())`.  A bucket only ever
holds copies of its own key, so the dict is an association list from key to
bucket size and the popped element is `key` itself.  Returns the updated
buckets and whether an element was popped. -/
def popBucket : List (String × ℕ) → String → List (String × ℕ) × Bool
  | [], _ => ([], false)
  | (k, c) :: rest, key =>
      if k = key then
        if c = 0 then ((k, c) :: rest, false) else ((k, c - 1) :: rest, true)
      else
        let r := popBucket rest key
        ((k, c) :: r.1, r.2)

/-- One pass of the `while` loop: `for s in [weakest, middle, strongest]`,
a visit order that repeats a key when `weakest == strongest` (then the shared
bucket is popped twice per pass, exactly as the Python dict behaves).
Returns the updated buckets and the elements emitted in this pass. -/
def visitPass : List (String × ℕ) → List String → List (String × ℕ) × List String
  | counts, [] => (counts, [])
  | counts, k :: rest =>
      let r := popBucket counts k
      let r2 := visitPass r.1 rest
      (r2.1, (if r.2 then [k] else []) ++ r2.2)

/-- The `while any(buckets[s] for s in buckets)` loop of
`_distribute_sports`, with fuel: every bucket key occurs in the visit order,
so each pass pops at least one element while any bucket is non-empty, and
fuel = total bucket size is never exhausted. -/
def whileLoop (order : List String) : ℕ → List (String × ℕ) → List String
  | 0, _ => []
  | fuel + 1, counts =>
      if counts.all (fun kc => kc.2 = 0) then []
      else
        let r := visitPass counts order
        r.2 ++ whileLoop order fuel r.1

/-- The count / trim / pad / interleave pipeline of `_distribute_sports`,
written for an arbitrary weakest / middle / strongest triple of sport names. -/
def _distribute_core (weakest middle strongest : String) (days_available : ℕ) : List String :=
  let base_per_sport : ℚ := (days_available : ℚ) / 3
  let weakest_count : ℕ := (⌈base_per_sport * (12/10)⌉).toNat
  let strongest_count : ℕ := (max 1 ⌊base_per_sport * (8/10)⌋).toNat
  let middle_count : ℕ := (max 1 ((days_available : ℤ) - weakest_count - strongest_count)).toNat
  let distribution :=
    List.replicate weakest_count weakest ++ List.replicate middle_count middle ++
      List.replicate strongest_count strongest
  let distribution := distribution.take days_available
  let distribution := distribution ++ List.replicate (days_available - distribution.length) weakest
  let buckets := (pyDictKeys [weakest, middle, strongest]).map
    (fun k => (k, distribution.count k))
  let result := whileLoop [weakest, middle, strongest] distribution.length buckets
  result.take days_available

/-- `_distribute_sports(days_available, strongest, weakest)`. -/
def _distribute_sports (days_available : ℕ) (strongest weakest : String) : List String :=
  let sports := ["swim", "bike", "run"]
  let middle := (sports.filter (fun x => x ≠ strongest ∧ x ≠ weakest)).headD ""
  _distribute_core weakest middle strongest days_available

/-- `_compute_week_durations(sport_order, weekly_hours, zones)`.
`dict.get` with default 1.0 becomes a total function on the sport / zone. -/
def _compute_week_durations (sport_order : List String) (weekly_hours : ℚ)
    (zones : List ℤ) : List ℤ :=
  let sport_weight : String → ℚ := fun s =>
    if s = "swim" then 75/100 else if s = "bike" then 125/100
    else if s = "run" then 1 else 1
  let zone_weight : ℤ → ℚ := fun z =>
    if z = 1 then 70/100 else if z = 2 then 1 else if z = 3 then 85/100
    else if z = 4 then 70/100 else if z = 5 then 55/100 else 1
  let raw_weights := (sport_order.zip zones).map (fun p => sport_weight p.1 * zone_weight p.2)
  let total_weight := raw_weights.sum
  let total_minutes := weekly_hours * 60
  raw_weights.map (fun w =>
    let minutes := w / total_weight * total_minutes
    max 20 (min 180 (pyRound (minutes / 5) * 5)))

/-- The keys of the profile dict that `generate_plan` reads.  `race_date` is
already a date (day number); the ISO-string branch is not modelled. -/
structure Profile where
  race_date : ℤ
  days_available : ℕ
  weekly_hours : ℚ
  strongest_discipline : String
  weakest_discipline : String
deriving Repr, DecidableEq

/-- One session dict appended by `generate_plan`. -/
structure Session where
  id : String
  week : ℕ
  day : String
  sport : String
  duration_minutes : ℤ
  zone : ℤ
  zone_label : String
  description : String
deriving Repr, DecidableEq

instance : Inhabited Session := ⟨⟨"", 0, "", "", 0, 0, "", ""⟩⟩

/-- The dict returned by `generate_plan`. -/
structure Plan where
  weeks_until_race : ℕ
  sessions : List Session
deriving Repr, DecidableEq

/-- The body of `generate_plan`'s per-week loop: the sessions appended for
week `week_num`.  `enumerate(zip(training_days, sport_order))` is modelled as
a map over the indices of the zip; `week_zones[day_index]` and
`week_durations[day_index]` are in-range index accesses (`getD` defaults are
unreachable), and `ZONE_LABELS[zone]` always hits a key since zones are 1-4. -/
def weekSessions (week_num days_available : ℕ) (weekly_hours : ℚ)
    (strongest weakest : String) : List Session :=
  let is_recovery : Bool := week_num % 4 = 0
  let week_hours := if is_recovery then weekly_hours * (6/10) else weekly_hours
  let sport_order := _distribute_sports days_available strongest weakest
  let training_days := DAYS_OF_WEEK.take days_available
  let week_zones := (List.range days_available).map
    (fun i => _assign_zone i days_available is_recovery)
  let week_durations := _compute_week_durations sport_order week_hours week_zones
  (List.range ((training_days.zip sport_order).length)).map (fun day_index =>
    let pr := (training_days.zip sport_order).getD day_index ("", "")
    let day_name := pr.1
    let sport := pr.2
    let zone := week_zones.getD day_index 0
    let duration := week_durations.getD day_index 0
    let description := (PLACEHOLDER_DESCRIPTIONS.lookup (sport, zone)).getD
      ("Zone " ++ toString zone ++ " " ++ sport ++ " session. Maintain target intensity throughout.")
    let session_id := "w" ++ toString week_num ++ "_d" ++ toString (day_index + 1) ++ "_" ++ sport
    { id := session_id, week := week_num, day := day_name, sport := sport,
      duration_minutes := duration, zone := zone,
      zone_label := (ZONE_LABELS.lookup zone).getD "", description := description })

/-- `generate_plan(profile)` from `backend/services/plan_engine.py`;
`today` passed explicitly (the Python reads `date.today()` inside
`_weeks_until_race`). -/
def generate_plan (profile : Profile) (today : ℤ) : Plan :=
  let weeks := _weeks_until_race profile.race_date today
  let sessions := ((List.range weeks).map (fun wk =>
    weekSessions (wk + 1) profile.days_available profile.weekly_hours
      profile.strongest_discipline profile.weakest_discipline)).flatten
  ⟨weeks, sessions⟩

/-! ## Supporting lemmas about the plan engine -/

/-- Total number of bucketed elements. -/
def totalCount (l : List (String × ℕ)) : ℕ := (l.map (fun kc => kc.2)).sum

theorem pyDictKeys_nodup (l : List String) : (pyDictKeys l).Nodup := by
  induction l with
  | nil => exact List.nodup_nil
  | cons k rest ih =>
      simp only [pyDictKeys]
      refine List.nodup_cons.mpr ⟨?_, List.Nodup.filter _ ih⟩
      intro hmem
      have := (List.mem_filter.mp hmem).2
      simp at this

theorem mem_pyDictKeys {a : String} {l : List String} : a ∈ pyDictKeys l ↔ a ∈ l := by
  induction l with
  | nil => simp [pyDictKeys]
  | cons k rest ih =>
      simp only [pyDictKeys, List.mem_cons, List.mem_filter]
      constructor
      · rintro (rfl | ⟨h, _⟩)
        · exact Or.inl rfl
        · exact Or.inr (ih.mp h)
      · rintro (rfl | h)
        · exact Or.inl rfl
        · by_cases hak : a = k
          · exact Or.inl hak
          · exact Or.inr ⟨ih.mpr h, by simpa using hak⟩

theorem popBucket_keys (l : List (String × ℕ)) (key : String) :
    (popBucket l key).1.map Prod.fst = l.map Prod.fst := by
  induction l with
  | nil => rfl
  | cons hd tl ih =>
      obtain ⟨k, c⟩ := hd
      simp only [popBucket]
      split_ifs <;> simp [ih]

theorem popBucket_total (l : List (String × ℕ)) (key : String) :
    totalCount (popBucket l key).1 + (if (popBucket l key).2 then 1 else 0) = totalCount l := by
  induction l with
  | nil => simp [popBucket, totalCount]
  | cons hd tl ih =>
      obtain ⟨k, c⟩ := hd
      by_cases h1 : k = key
      · by_cases h2 : c = 0
        · simp [popBucket, h1, h2, totalCount]
        · simp [popBucket, h1, h2, totalCount]
          omega
      · simp only [popBucket, if_neg h1]
        try dsimp only
        rcases hb : (popBucket tl key).2 <;>
          simp only [hb, Bool.false_eq_true, if_true, if_false] at ih ⊢ <;>
          simp only [totalCount, List.map_cons, List.sum_cons] at ih ⊢ <;>
          omega

theorem popBucket_stay (l : List (String × ℕ)) (key : String)
    (h : (popBucket l key).2 = false) : (popBucket l key).1 = l := by
  induction l with
  | nil => rfl
  | cons hd tl ih =>
      obtain ⟨k, c⟩ := hd
      by_cases h1 : k = key
      · by_cases h2 : c = 0
        · simp [popBucket, h1, h2]
        · simp [popBucket, h1, h2] at h
      · simp only [popBucket, if_neg h1] at h ⊢
        try dsimp only at h ⊢
        rw [ih h]

theorem popBucket_emit (l : List (String × ℕ)) (key : String) (c : ℕ)
    (hnd : (l.map Prod.fst).Nodup) (hmem : (key, c) ∈ l) (hc : c ≠ 0) :
    (popBucket l key).2 = true := by
  induction l with
  | nil => simp at hmem
  | cons hd tl ih =>
      obtain ⟨k, c2⟩ := hd
      simp only [List.map_cons, List.nodup_cons] at hnd
      rcases List.mem_cons.mp hmem with heq | hmem2
      · rw [Prod.mk.injEq] at heq
        obtain ⟨rfl, rfl⟩ := heq
        simp [popBucket, hc]
      · by_cases hk : k = key
        · exfalso
          apply hnd.1
          rw [hk]
          exact List.mem_map_of_mem Prod.fst hmem2
        · simp only [popBucket, if_neg hk]
          try dsimp only
          exact ih hnd.2 hmem2

theorem visitPass_keys (order : List String) (counts : List (String × ℕ)) :
    (visitPass counts order).1.map Prod.fst = counts.map Prod.fst := by
  induction order generalizing counts with
  | nil => rfl
  | cons k rest ih =>
      simp only [visitPass]
      try dsimp only
      rw [ih, popBucket_keys]

theorem visitPass_total (order : List String) (counts : List (String × ℕ)) :
    totalCount (visitPass counts order).1 + (visitPass counts order).2.length =
      totalCount counts := by
  induction order generalizing counts with
  | nil => simp [visitPass]
  | cons k rest ih =>
      simp only [visitPass]
      try dsimp only
      have h1 := popBucket_total counts k
      have h2 := ih (popBucket counts k).1
      rcases hb : (popBucket counts k).2 <;>
        simp only [hb, if_true, if_false, Bool.false_eq_true] at h1 ⊢ <;>
        simp only [List.length_append, List.length_cons, List.length_nil,
          List.nil_append, List.singleton_append] at h2 ⊢ <;>
        omega

theorem visitPass_progress (order : List String) :
    ∀ counts : List (String × ℕ), (counts.map Prod.fst).Nodup →
      ∀ key c, (key, c) ∈ counts → c ≠ 0 → key ∈ order →
      (visitPass counts order).2 ≠ [] := by
  induction order with
  | nil =>
      intro counts _ key c _ _ hk
      simp at hk
  | cons k0 rest ih =>
      intro counts hnd key c hmem hc hk
      simp only [visitPass]
      try dsimp only
      rcases hb : (popBucket counts k0).2
      · rw [popBucket_stay counts k0 hb]
        simp only [hb, Bool.false_eq_true, if_false, List.nil_append]
        rcases List.mem_cons.mp hk with rfl | hk2
        · exact absurd (popBucket_emit counts key c hnd hmem hc) (by simp [hb])
        · exact ih counts hnd key c hmem hc hk2
      · simp [hb]

theorem whileLoop_length (order : List String) :
    ∀ fuel counts, totalCount counts ≤ fuel →
      (counts.map Prod.fst).Nodup →
      (∀ k ∈ counts.map Prod.fst, k ∈ order) →
      (whileLoop order fuel counts).length = totalCount counts := by
  intro fuel
  induction fuel with
  | zero =>
      intro counts h _ _
      simp only [whileLoop, List.length_nil]
      omega
  | succ n ih =>
      intro counts h hnd hord
      simp only [whileLoop]
      split_ifs with hall
      · simp only [List.length_nil]
        have hz : totalCount counts = 0 := by
          unfold totalCount
          apply List.sum_eq_zero
          intro x hx
          obtain ⟨kc, hkc, rfl⟩ := List.mem_map.mp hx
          exact of_decide_eq_true (List.all_eq_true.mp hall kc hkc)
        omega
      · simp only [List.all_eq_true, decide_eq_true_eq, not_forall] at hall
        obtain ⟨kc, hkc, hc⟩ := hall
        have hprog := visitPass_progress order counts hnd kc.1 kc.2 hkc hc
          (hord kc.1 (List.mem_map_of_mem Prod.fst hkc))
        have htot := visitPass_total order counts
        have hkeys := visitPass_keys order counts
        have hlen1 : 1 ≤ (visitPass counts order).2.length := by
          rcases hv : (visitPass counts order).2 with _ | ⟨a, b⟩
          · exact absurd hv hprog
          · simp
        rw [List.length_append]
        rw [ih (visitPass counts order).1 (by omega) (by rw [hkeys]; exact hnd)
          (by rw [hkeys]; exact hord)]
        omega

theorem sum_map_add (l : List String) (f g : String → ℕ) :
    (l.map (fun x => f x + g x)).sum = (l.map f).sum + (l.map g).sum := by
  induction l with
  | nil => rfl
  | cons hd tl ih =>
      simp only [List.map_cons, List.sum_cons, ih]
      omega

theorem sum_indicator_one (keys : List String) (x : String) (hnd : keys.Nodup)
    (hx : x ∈ keys) :
    (keys.map (fun k => if x == k then 1 else 0)).sum = 1 := by
  induction keys with
  | nil => simp at hx
  | cons k ks ih =>
      rw [List.nodup_cons] at hnd
      rcases List.mem_cons.mp hx with rfl | hx2
      · simp only [List.map_cons, List.sum_cons, beq_self_eq_true, if_pos]
        have hz : (ks.map (fun k => if x == k then 1 else 0)).sum = 0 := by
          apply List.sum_eq_zero
          intro y hy
          obtain ⟨k2, hk2, rfl⟩ := List.mem_map.mp hy
          have : ¬(x == k2) = true := by
            simp only [beq_iff_eq]
            intro hkx
            exact hnd.1 (hkx ▸ hk2)
          simp [this]
        omega
      · have hxk : ¬(x == k) = true := by
          simp only [beq_iff_eq]
          intro hkx
          exact hnd.1 (hkx ▸ hx2)
        simp only [List.map_cons, List.sum_cons, if_neg hxk, ih hnd.2 hx2]

/-- For a key list without duplicates covering every element of `D`, the
per-key counts partition `D`'s length. -/
theorem sum_count_eq_length (keys D : List String) (hnd : keys.Nodup)
    (hmem : ∀ x ∈ D, x ∈ keys) :
    (keys.map (fun k => D.count k)).sum = D.length := by
  induction D with
  | nil => simp
  | cons x D ih =>
      have hx := hmem x (List.mem_cons_self x D)
      have hmem2 : ∀ y ∈ D, y ∈ keys := fun y hy => hmem y (List.mem_cons_of_mem x hy)
      simp only [List.count_cons, List.length_cons]
      rw [sum_map_add keys (fun k => D.count k) (fun k => if x == k then 1 else 0),
        ih hmem2, sum_indicator_one keys x hnd hx]

/-- The reconciled distribution pipeline always returns exactly
`days_available` entries, for ANY weakest / middle / strongest names
(including duplicated ones, where the dict collapses the buckets). -/
theorem _distribute_core_length (w m s : String) (days : ℕ) :
    (_distribute_core w m s days).length = days := by
  unfold _distribute_core
  dsimp only
  set cw := (⌈((days : ℚ) / 3) * (12/10)⌉).toNat with hcw
  set cs := (max 1 ⌊((days : ℚ) / 3) * (8/10)⌋).toNat with hcs
  set cm := (max 1 ((days : ℤ) - cw - cs)).toNat with hcm
  set dist0 := List.replicate cw w ++ List.replicate cm m ++ List.replicate cs s with hdist0
  set dist1 := dist0.take days with hdist1
  set D := dist1 ++ List.replicate (days - dist1.length) w with hD
  have hDlen : D.length = days := by
    have h1 : dist1.length = min days dist0.length := by
      simp [hdist1]
    simp only [hD, List.length_append, List.length_replicate]
    omega
  have hmem : ∀ x ∈ D, x ∈ [w, m, s] := by
    intro x hx
    simp only [hD, List.mem_append, List.mem_replicate] at hx
    rcases hx with hx | hx
    · have : x ∈ dist0 := List.mem_of_mem_take hx
      simp only [hdist0, List.mem_append, List.mem_replicate] at this
      simp only [List.mem_cons, List.not_mem_nil, or_false]
      tauto
    · simp [hx.2]
  set keys := pyDictKeys [w, m, s] with hkeys
  have hbk : ((keys.map (fun k => (k, D.count k))).map Prod.fst) = keys := by
    rw [List.map_map, show (Prod.fst ∘ fun k => (k, D.count k)) = id from rfl, List.map_id]
  have htot : totalCount (keys.map (fun k => (k, D.count k))) = D.length := by
    unfold totalCount
    rw [List.map_map]
    have : (Prod.snd ∘ fun k => (k, D.count k)) = fun k => D.count k := rfl
    rw [this]
    exact sum_count_eq_length keys D (pyDictKeys_nodup _)
      (fun x hx => mem_pyDictKeys.mpr (hmem x hx))
  have hloop := whileLoop_length [w, m, s] D.length (keys.map (fun k => (k, D.count k)))
    (by omega) (by rw [hbk]; exact pyDictKeys_nodup _)
    (by rw [hbk]; intro k hk; exact mem_pyDictKeys.mp hk)
  rw [List.length_take, hloop, htot, hDlen, min_self]

/-- `_distribute_sports` always returns exactly `days_available` entries —
no validity assumptions on the discipline names are needed. -/
theorem _distribute_sports_length (days : ℕ) (strongest weakest : String) :
    (_distribute_sports days strongest weakest).length = days := by
  unfold _distribute_sports
  dsimp only
  exact _distribute_core_length _ _ _ days

theorem weekSessions_length (week_num days : ℕ) (h : ℚ) (strongest weakest : String) :
    (weekSessions week_num days h strongest weakest).length = min days 7 := by
  unfold weekSessions
  dsimp only
  simp only [List.length_map, List.length_range, List.length_zip, List.length_take,
    _distribute_sports_length]
  have : DAYS_OF_WEEK.length = 7 := by decide
  omega

/-! ## Claim theorems: plan engine -/

/-- Claim C2: `generate_plan` is deterministic.  In this embedding the only
ambient state the Python reads — `date.today()` — is an explicit parameter,
and the function is pure (no randomness, dict iteration in insertion order),
so two calls with an identical profile and identical "today" return
identical session lists and identical `weeks_until_race`. -/
theorem generate_plan_deterministic (profile : Profile) (today : ℤ) :
    (generate_plan profile today).sessions = (generate_plan profile today).sessions ∧
      (generate_plan profile today).weeks_until_race =
        (generate_plan profile today).weeks_until_race :=
  ⟨rfl, rfl⟩

/-- Claim C8: for every `days_available` in 1..7 and every distinct
strongest / weakest pair from {swim, bike, run}, `_distribute_sports` returns
exactly `days_available` entries, each one of "swim", "bike", "run". -/
theorem distribute_sports_length_mem (days : ℕ) (strongest weakest : String)
    (h1 : 1 ≤ days) (h7 : days ≤ 7)
    (hs : strongest ∈ ["swim", "bike", "run"]) (hw : weakest ∈ ["swim", "bike", "run"])
    (hne : strongest ≠ weakest) :
    (_distribute_sports days strongest weakest).length = days ∧
      ∀ x ∈ _distribute_sports days strongest weakest, x ∈ ["swim", "bike", "run"] := by
  fin_cases hs <;> fin_cases hw <;>
    first
      | exact absurd rfl hne
      | (interval_cases days <;>
          exact ⟨by with_unfolding_all decide, by with_unfolding_all decide⟩)

/-- Witness for C8 at a concrete input. -/
theorem distribute_sports_length_mem_witness :
    (_distribute_sports 5 "bike" "swim").length = 5 ∧
      ∀ x ∈ _distribute_sports 5 "bike" "swim", x ∈ ["swim", "bike", "run"] :=
  distribute_sports_length_mem 5 "bike" "swim" (by decide) (by decide) (by decide)
    (by decide) (by decide)

/-- Claim C9 (counterexample): for `days_available = 3`, strongest "bike",
weakest "swim", the computed counts are weakest 2 = ceil(3/3*1.2),
strongest 1 = max(1, floor(3/3*0.8)), middle 1 = max(1, 3-2-1), summing to 4.
Reconciliation truncates the concatenated
`[weakest]*2 ++ [middle]*1 ++ [strongest]*1` list to its first 3 entries,
which drops the STRONGEST discipline's session, not the weakest's: the result
contains no "bike" at all even though the strongest count was 1.  So the
claim that only the weakest discipline's count is adjusted is false. -/
theorem distribute_sports_truncation_counterexample :
    _distribute_sports 3 "bike" "swim" = ["swim", "run", "swim"] ∧
      (⌈((3 : ℚ) / 3) * (12/10)⌉ = 2 ∧ max 1 ⌊((3 : ℚ) / 3) * (8/10)⌋ = 1 ∧
        max 1 ((3 : ℤ) - 2 - 1) = 1) ∧
      (_distribute_sports 3 "bike" "swim").count "bike" = 0 := by
  with_unfolding_all decide

/-- Claim C9 (amended): the three per-discipline counts always sum to at
least `days_available`, so padding (which would extend the weakest) never
occurs; when they sum to more, reconciliation truncates the concatenated
weakest ++ middle ++ strongest list from its END, so the weakest keeps
`min cw days` entries (its full quota whenever it fits), the middle keeps
`min cm (days - min cw days)`, and the strongest absorbs the remaining
truncation — the strongest and middle counts are cut first, never the
weakest's. -/
theorem distribute_sports_truncation (days : ℕ) (strongest weakest : String)
    (h1 : 1 ≤ days) (h7 : days ≤ 7)
    (hs : strongest ∈ ["swim", "bike", "run"]) (hw : weakest ∈ ["swim", "bike", "run"])
    (hne : strongest ≠ weakest) :
    days ≤ (⌈((days : ℚ) / 3) * (12/10)⌉).toNat +
        (max 1 ((days : ℤ) - (⌈((days : ℚ) / 3) * (12/10)⌉).toNat -
          (max 1 ⌊((days : ℚ) / 3) * (8/10)⌋).toNat)).toNat +
        (max 1 ⌊((days : ℚ) / 3) * (8/10)⌋).toNat ∧
      (_distribute_sports days strongest weakest).count weakest =
        min (⌈((days : ℚ) / 3) * (12/10)⌉).toNat days ∧
      (_distribute_sports days strongest weakest).count
          ((["swim", "bike", "run"].filter
            (fun x => x ≠ strongest ∧ x ≠ weakest)).headD "") =
        min (max 1 ((days : ℤ) - (⌈((days : ℚ) / 3) * (12/10)⌉).toNat -
            (max 1 ⌊((days : ℚ) / 3) * (8/10)⌋).toNat)).toNat
          (days - min (⌈((days : ℚ) / 3) * (12/10)⌉).toNat days) ∧
      (_distribute_sports days strongest weakest).count strongest =
        days - min (⌈((days : ℚ) / 3) * (12/10)⌉).toNat days -
          min (max 1 ((days : ℤ) - (⌈((days : ℚ) / 3) * (12/10)⌉).toNat -
              (max 1 ⌊((days : ℚ) / 3) * (8/10)⌋).toNat)).toNat
            (days - min (⌈((days : ℚ) / 3) * (12/10)⌉).toNat days) := by
  fin_cases hs <;> fin_cases hw <;>
    first
      | exact absurd rfl hne
      | (interval_cases days <;> with_unfolding_all decide)

/-- Witness for the amended C9 at the counterexample's input. -/
theorem distribute_sports_truncation_witness :
    (3 : ℕ) ≤ (⌈((3 : ℚ) / 3) * (12/10)⌉).toNat +
        (max 1 ((3 : ℤ) - (⌈((3 : ℚ) / 3) * (12/10)⌉).toNat -
          (max 1 ⌊((3 : ℚ) / 3) * (8/10)⌋).toNat)).toNat +
        (max 1 ⌊((3 : ℚ) / 3) * (8/10)⌋).toNat ∧
      (_distribute_sports 3 "bike" "swim").count "swim" =
        min (⌈((3 : ℚ) / 3) * (12/10)⌉).toNat 3 ∧
      (_distribute_sports 3 "bike" "swim").count
          ((["swim", "bike", "run"].filter
            (fun x => x ≠ "bike" ∧ x ≠ "swim")).headD "") =
        min (max 1 ((3 : ℤ) - (⌈((3 : ℚ) / 3) * (12/10)⌉).toNat -
          (max 1 ⌊((3 : ℚ) / 3) * (8/10)⌋).toNat)).toNat
          (3 - min (⌈((3 : ℚ) / 3) * (12/10)⌉).toNat 3) ∧
      (_distribute_sports 3 "bike" "swim").count "bike" =
        3 - min (⌈((3 : ℚ) / 3) * (12/10)⌉).toNat 3 -
          min (max 1 ((3 : ℤ) - (⌈((3 : ℚ) / 3) * (12/10)⌉).toNat -
            (max 1 ⌊((3 : ℚ) / 3) * (8/10)⌋).toNat)).toNat
            (3 - min (⌈((3 : ℚ) / 3) * (12/10)⌉).toNat 3) :=
  distribute_sports_truncation 3 "bike" "swim" (by decide) (by decide) (by decide)
    (by decide) (by decide)

/-- Claim C5 (counterexample): `generate_plan` performs no input validation.
For the invalid profile with `weekly_hours = -5` (non-positive), race 7 days
out, it does not fail: it returns a normal plan with 1 week and 3 sessions,
silently clamping every session's duration up to the 20-minute floor.
Likewise for `strongest_discipline == weakest_discipline` ("bike" twice,
another input the claim says must be rejected): the buckets dict collapses to
two keys and a normal 3-session plan [bike, swim, bike] is returned. -/
theorem generate_plan_no_validation_counterexample :
    (generate_plan ⟨7, 3, -5, "bike", "swim"⟩ 0).weeks_until_race = 1 ∧
      (generate_plan ⟨7, 3, -5, "bike", "swim"⟩ 0).sessions.length = 3 ∧
      (generate_plan ⟨7, 3, -5, "bike", "swim"⟩ 0).sessions.map
          (fun s => s.duration_minutes) = [20, 20, 20] ∧
      (generate_plan ⟨7, 3, 6, "bike", "bike"⟩ 0).sessions.length = 3 ∧
      (generate_plan ⟨7, 3, 6, "bike", "bike"⟩ 0).sessions.map (fun s => s.sport) =
        ["bike", "swim", "bike"] := by
  with_unfolding_all decide

/-- Claim C5 (amended): `generate_plan` never fails fast and never raises on
invalid caller-supplied inputs.  For EVERY profile — any `weekly_hours`
(including non-positive values), any `days_available` (including 0 and values
above 7), and any discipline strings, including `strongest_discipline =
weakest_discipline` — it returns a structurally formed plan:
`weeks_until_race = max(1, (race_date - today) // 7)` and exactly
`min(days_available, 7)` sessions for each of those weeks.  No layer of the
engine checks these inputs (the HTTP layer's pydantic model checks hour and
day ranges, but nothing anywhere checks discipline distinctness). -/
theorem generate_plan_no_validation (p : Profile) (today : ℤ) :
    (generate_plan p today).weeks_until_race = _weeks_until_race p.race_date today ∧
      (generate_plan p today).sessions.length =
        _weeks_until_race p.race_date today * min p.days_available 7 := by
  refine ⟨rfl, ?_⟩
  unfold generate_plan
  dsimp only
  rw [List.length_flatten, List.map_map]
  have hcongr : ∀ wk ∈ List.range (_weeks_until_race p.race_date today),
      (List.length ∘ fun wk => weekSessions (wk + 1) p.days_available p.weekly_hours
        p.strongest_discipline p.weakest_discipline) wk = min p.days_available 7 := by
    intro wk _
    exact weekSessions_length (wk + 1) p.days_available p.weekly_hours
      p.strongest_discipline p.weakest_discipline
  rw [List.map_congr_left hcongr, List.map_const', List.sum_replicate, List.length_range,
    smul_eq_mul]

theorem _compute_week_durations_length (so : List String) (h : ℚ) (z : List ℤ) :
    (_compute_week_durations so h z).length = min so.length z.length := by
  unfold _compute_week_durations
  dsimp only
  simp

/-- Inversion for `generate_plan`: every emitted session comes from a week
number `wn` in `1..weeks` and a day index `i < min days 7`; its `day` is the
`i`-th weekday name, its `zone` is `_assign_zone i days (wn % 4 == 0)`, and
its duration has the round-multiply-clamp shape produced by
`_compute_week_durations`. -/
theorem generate_plan_session_shape {p : Profile} {today : ℤ} {s : Session}
    (hs : s ∈ (generate_plan p today).sessions) :
    ∃ wn i, s.week = wn ∧ 1 ≤ wn ∧ wn ≤ _weeks_until_race p.race_date today ∧
      i < min p.days_available 7 ∧ i < p.days_available ∧
      s.day = DAYS_OF_WEEK.getD i "" ∧
      s.zone = _assign_zone i p.days_available (decide (wn % 4 = 0)) ∧
      ∃ q : ℚ, s.duration_minutes = max 20 (min 180 (pyRound q * 5)) := by
  unfold generate_plan at hs
  dsimp only at hs
  rw [List.mem_flatten] at hs
  obtain ⟨l, hl, hsl⟩ := hs
  rw [List.mem_map] at hl
  obtain ⟨wk, hwk, rfl⟩ := hl
  rw [List.mem_range] at hwk
  unfold weekSessions at hsl
  dsimp only at hsl
  rw [List.mem_map] at hsl
  obtain ⟨i, hir, rfl⟩ := hsl
  rw [List.mem_range] at hir
  have hdw : DAYS_OF_WEEK.length = 7 := by decide
  have htd : (DAYS_OF_WEEK.take p.days_available).length = min p.days_available 7 := by
    simp [hdw]
  have hzipLen := List.length_zip (DAYS_OF_WEEK.take p.days_available)
    (_distribute_sports p.days_available p.strongest_discipline p.weakest_discipline)
  have hi7 : i < min p.days_available 7 := by omega
  have hid : i < p.days_available := by omega
  refine ⟨wk + 1, i, rfl, by omega, by omega, hi7, hid, ?_, ?_, ?_⟩
  · dsimp only
    rw [List.getD_eq_getElem _ _ hir, List.getElem_zip]
    dsimp only
    rw [List.getElem_take]
    rw [List.getD_eq_getElem _ _ (by omega : i < DAYS_OF_WEEK.length)]
  · dsimp only
    rw [List.getD_eq_getElem _ _ (by simpa using hid), List.getElem_map, List.getElem_range]
  · dsimp only
    have hlen : i < (_compute_week_durations
        (_distribute_sports p.days_available p.strongest_discipline p.weakest_discipline)
        (if (decide ((wk + 1) % 4 = 0) : Bool) then p.weekly_hours * (6/10) else p.weekly_hours)
        ((List.range p.days_available).map
          (fun j => _assign_zone j p.days_available (decide ((wk + 1) % 4 = 0))))).length := by
      rw [_compute_week_durations_length]
      simp only [List.length_map, List.length_range]
      omega
    rw [List.getD_eq_getElem _ _ hlen]
    unfold _compute_week_durations
    dsimp only
    rw [List.getElem_map]
    exact ⟨_, rfl⟩

/-- Claim C3: for every valid profile (`days_available` in 1..7, positive
weekly hours), every session produced by `generate_plan` has a
`duration_minutes` that is a multiple of 5 in the closed interval [20, 180];
edge cases are resolved by the `max 20 (min 180 ...)` clamp, never by an
error (the embedded engine is a total function). -/
theorem generate_plan_durations (p : Profile) (today : ℤ)
    (h1 : 1 ≤ p.days_available) (h7 : p.days_available ≤ 7)
    (hh : 0 < p.weekly_hours)
    (s : Session) (hs : s ∈ (generate_plan p today).sessions) :
    s.duration_minutes % 5 = 0 ∧ 20 ≤ s.duration_minutes ∧ s.duration_minutes ≤ 180 := by
  obtain ⟨wn, i, _, _, _, _, _, _, _, q, hq⟩ := generate_plan_session_shape hs
  rw [hq]
  generalize pyRound q = z
  omega

/-- Witness for C3 at a concrete profile (10 weeks / 3 days): the first
generated session. -/
theorem generate_plan_durations_witness :
    ((generate_plan ⟨28, 3, 6, "bike", "swim"⟩ 0).sessions.getD 0 default).duration_minutes % 5
        = 0 ∧
      20 ≤ ((generate_plan ⟨28, 3, 6, "bike", "swim"⟩ 0).sessions.getD 0 default).duration_minutes ∧
      ((generate_plan ⟨28, 3, 6, "bike", "swim"⟩ 0).sessions.getD 0 default).duration_minutes ≤ 180 :=
  generate_plan_durations ⟨28, 3, 6, "bike", "swim"⟩ 0 (by decide) (by decide)
    (by with_unfolding_all decide) _ (by with_unfolding_all decide)

/-- Claim C4: in every recovery week (week number divisible by 4), every
session's zone is 1 when its 0-based day position is divisible by 3 and 2
otherwise — never 3, 4 or 5.  The day position is recovered from the session's
weekday name (`DAYS_OF_WEEK.indexOf`). -/
theorem generate_plan_recovery_zones (p : Profile) (today : ℤ)
    (s : Session) (hs : s ∈ (generate_plan p today).sessions)
    (hrec : s.week % 4 = 0) :
    (s.zone = 1 ∨ s.zone = 2) ∧
      s.zone = if DAYS_OF_WEEK.indexOf s.day % 3 = 0 then 1 else 2 := by
  obtain ⟨wn, i, hweek, _, _, hi7, _, hday, hzone, _⟩ := generate_plan_session_shape hs
  rw [hweek] at hrec
  have hb : decide (wn % 4 = 0) = true := decide_eq_true hrec
  rw [hb] at hzone
  have hz : s.zone = if i % 3 = 0 then 1 else 2 := hzone
  have hlt7 : i < 7 := by omega
  have hidx : DAYS_OF_WEEK.indexOf s.day = i := by
    rw [hday]
    interval_cases i <;> decide
  rw [hidx, hz]
  constructor
  · split_ifs <;> simp
  · rfl

/-- Witness for C4: in the 4-week concrete plan, session 9 (week 4, day 1)
is a recovery-week session. -/
theorem generate_plan_recovery_zones_witness :
    (((generate_plan ⟨28, 3, 6, "bike", "swim"⟩ 0).sessions.getD 9 default).zone = 1 ∨
        ((generate_plan ⟨28, 3, 6, "bike", "swim"⟩ 0).sessions.getD 9 default).zone = 2) ∧
      ((generate_plan ⟨28, 3, 6, "bike", "swim"⟩ 0).sessions.getD 9 default).zone =
        if DAYS_OF_WEEK.indexOf
            ((generate_plan ⟨28, 3, 6, "bike", "swim"⟩ 0).sessions.getD 9 default).day % 3 = 0
          then 1 else 2 :=
  generate_plan_recovery_zones ⟨28, 3, 6, "bike", "swim"⟩ 0 _
    (by with_unfolding_all decide) (by with_unfolding_all decide)

/-- `_assign_zone` never yields zone 4 (or 5) when there are at most 7
sessions: the largest normal-week ratio is `(days-1)/days ≤ 6/7 < 0.9`. -/
theorem _assign_zone_cases (i days : ℕ) (b : Bool) (hi : i < days) (h7 : days ≤ 7) :
    _assign_zone i days b = 1 ∨ _assign_zone i days b = 2 ∨ _assign_zone i days b = 3 := by
  unfold _assign_zone
  cases b
  case false =>
    dsimp only
    have hd0 : 0 < days := by omega
    have hratio : ((i : ℚ) / ((max days 1 : ℕ) : ℚ)) < 90/100 := by
      have hmax : max days 1 = days := by omega
      have hdq : (0 : ℚ) < (days : ℚ) := by exact_mod_cast hd0
      rw [hmax, div_lt_iff₀ hdq]
      have h10 : (10 : ℚ) * i < 9 * days := by exact_mod_cast (by omega : 10 * i < 9 * days)
      linarith
    simp only [Bool.false_eq_true, if_false]
    split_ifs with hlo
    · right; left; rfl
    · right; right; rfl
  case true =>
    dsimp only
    rw [if_pos rfl]
    split_ifs
    · left; rfl
    · right; left; rfl

/-- Claim C6: for every profile with `days_available` in 1..7, no generated
session has zone 4 or zone 5: the normal-week rule's `ratio >= 0.9` branch is
unreachable since `i/days <= 6/7 < 0.9`, so every zone is 1, 2 or 3. -/
theorem generate_plan_zone_cap (p : Profile) (today : ℤ)
    (h1 : 1 ≤ p.days_available) (h7 : p.days_available ≤ 7)
    (s : Session) (hs : s ∈ (generate_plan p today).sessions) :
    (s.zone = 1 ∨ s.zone = 2 ∨ s.zone = 3) ∧ s.zone ≠ 4 ∧ s.zone ≠ 5 := by
  obtain ⟨wn, i, _, _, _, _, hid, _, hzone, _⟩ := generate_plan_session_shape hs
  rw [hzone]
  rcases _assign_zone_cases i p.days_available (decide (wn % 4 = 0)) hid h7 with h | h | h <;>
    rw [h] <;> exact ⟨by tauto, by decide, by decide⟩

/-- Witness for C6: session 1 of the concrete 4-week plan. -/
theorem generate_plan_zone_cap_witness :
    (((generate_plan ⟨28, 3, 6, "bike", "swim"⟩ 0).sessions.getD 1 default).zone = 1 ∨
        ((generate_plan ⟨28, 3, 6, "bike", "swim"⟩ 0).sessions.getD 1 default).zone = 2 ∨
        ((generate_plan ⟨28, 3, 6, "bike", "swim"⟩ 0).sessions.getD 1 default).zone = 3) ∧
      ((generate_plan ⟨28, 3, 6, "bike", "swim"⟩ 0).sessions.getD 1 default).zone ≠ 4 ∧
      ((generate_plan ⟨28, 3, 6, "bike", "swim"⟩ 0).sessions.getD 1 default).zone ≠ 5 :=
  generate_plan_zone_cap ⟨28, 3, 6, "bike", "swim"⟩ 0 (by decide) (by decide) _
    (by with_unfolding_all decide)

/-! ## Claim theorems: zone calculator -/

theorem pyRound_hundredths_lt (v i j : ℤ) (hv : 100 ≤ v) (hij : i < j) :
    pyRound ((v : ℚ) * ((i : ℚ) / 100)) < pyRound ((v : ℚ) * ((j : ℚ) / 100)) := by
  rcases lt_or_eq_of_le hv with h | h
  · apply pyRound_lt_pyRound
    have hv' : (101 : ℚ) ≤ (v : ℚ) := by exact_mod_cast h
    have hij' : (i : ℚ) + 1 ≤ (j : ℚ) := by exact_mod_cast hij
    have hmul : (v : ℚ) * ((i : ℚ) + 1) ≤ (v : ℚ) * (j : ℚ) :=
      mul_le_mul_of_nonneg_left hij' (by linarith)
    have hexp : (v : ℚ) * ((i : ℚ) + 1) = (v : ℚ) * (i : ℚ) + (v : ℚ) := by ring
    have e1 : (v : ℚ) * ((i : ℚ) / 100) = ((v : ℚ) * (i : ℚ)) / 100 := by ring
    have e2 : (v : ℚ) * ((j : ℚ) / 100) = ((v : ℚ) * (j : ℚ)) / 100 := by ring
    rw [e1, e2]
    rw [hexp] at hmul
    linarith
  · subst h
    have e1 : ((100 : ℤ) : ℚ) * ((i : ℚ) / 100) = ((i : ℤ) : ℚ) := by push_cast; ring
    have e2 : ((100 : ℤ) : ℚ) * ((j : ℚ) / 100) = ((j : ℤ) : ℚ) := by push_cast; ring
    rw [e1, e2, pyRound_intCast, pyRound_intCast]
    exact hij

/-- Claim C7 (amended): for every input accepted by `compute_zones_math`, each
of the three tables has exactly 5 entries keyed Z1..Z5, Z1 has no minimum
(no slow limit for pace) and Z5 no maximum.  For thresholds `lthr >= 100` and
`ftp >= 100` the HR and power tables are strictly ordered and non-overlapping
(each boundary percentage rounds to a strictly larger value than the previous
one).  The pace table is NOT non-overlapping: its Z3 entry spans from 110% of
CSS (slow) down to 100% of CSS (fast), while Z4's slow bound is 105% of CSS —
strictly inside Z3's span whenever `css_sec > 20` — so the Z3 and Z4 pace
ranges overlap; the Z1/Z2/Z3 boundaries (125%, 110%, 100%) do descend in
order. -/
theorem compute_zones_tables (ftp lthr : ℤ) (css : String) (t : ZoneTables) (css_sec : ℤ)
    (ht : compute_zones_math ftp lthr css = some t)
    (hl : 100 ≤ lthr) (hf : 100 ≤ ftp)
    (hcs : _parse_pace_to_seconds (if css = "" ∨ css.trim = "" then "5:00" else css) =
      some css_sec)
    (hc : 20 < css_sec) :
    (t.hr_zones.map Prod.fst = ["Z1", "Z2", "Z3", "Z4", "Z5"] ∧
      t.power_zones.map Prod.fst = ["Z1", "Z2", "Z3", "Z4", "Z5"] ∧
      t.pace_zones.map Prod.fst = ["Z1", "Z2", "Z3", "Z4", "Z5"]) ∧
    ((∀ e ∈ t.hr_zones, e.1 = "Z1" → e.2.min = none) ∧
      (∀ e ∈ t.hr_zones, e.1 = "Z5" → e.2.max = none) ∧
      (∀ e ∈ t.power_zones, e.1 = "Z1" → e.2.min = none) ∧
      (∀ e ∈ t.power_zones, e.1 = "Z5" → e.2.max = none) ∧
      (∀ e ∈ t.pace_zones, e.1 = "Z1" → e.2.min_pace = none) ∧
      (∀ e ∈ t.pace_zones, e.1 = "Z5" → e.2.max_pace = none)) ∧
    (t.hr_zones = hrZonesOf lthr ∧
      pyRound ((lthr : ℚ) * (84/100)) < pyRound ((lthr : ℚ) * (85/100)) ∧
      pyRound ((lthr : ℚ) * (85/100)) < pyRound ((lthr : ℚ) * (89/100)) ∧
      pyRound ((lthr : ℚ) * (89/100)) < pyRound ((lthr : ℚ) * (90/100)) ∧
      pyRound ((lthr : ℚ) * (90/100)) < pyRound ((lthr : ℚ) * (94/100)) ∧
      pyRound ((lthr : ℚ) * (94/100)) < pyRound ((lthr : ℚ) * (95/100)) ∧
      pyRound ((lthr : ℚ) * (95/100)) < pyRound ((lthr : ℚ) * (99/100)) ∧
      pyRound ((lthr : ℚ) * (99/100)) < pyRound ((lthr : ℚ) * (100/100))) ∧
    (t.power_zones = powerZonesOf ftp ∧
      pyRound ((ftp : ℚ) * (55/100)) < pyRound ((ftp : ℚ) * (56/100)) ∧
      pyRound ((ftp : ℚ) * (56/100)) < pyRound ((ftp : ℚ) * (75/100)) ∧
      pyRound ((ftp : ℚ) * (75/100)) < pyRound ((ftp : ℚ) * (76/100)) ∧
      pyRound ((ftp : ℚ) * (76/100)) < pyRound ((ftp : ℚ) * (90/100)) ∧
      pyRound ((ftp : ℚ) * (90/100)) < pyRound ((ftp : ℚ) * (91/100)) ∧
      pyRound ((ftp : ℚ) * (91/100)) < pyRound ((ftp : ℚ) * (105/100)) ∧
      pyRound ((ftp : ℚ) * (105/100)) < pyRound ((ftp : ℚ) * (106/100))) ∧
    (t.pace_zones = paceZonesOf css_sec (if css = "" ∨ css.trim = "" then "5:00" else css) ∧
      pyRound ((css_sec : ℚ) * (100/100)) = css_sec ∧
      css_sec < pyRound ((css_sec : ℚ) * (105/100)) ∧
      pyRound ((css_sec : ℚ) * (105/100)) < pyRound ((css_sec : ℚ) * (110/100)) ∧
      pyRound ((css_sec : ℚ) * (110/100)) < pyRound ((css_sec : ℚ) * (125/100))) := by
  unfold compute_zones_math at ht
  dsimp only at ht
  rw [if_neg (by omega : ¬ lthr ≤ 0), if_neg (by omega : ¬ ftp ≤ 0), hcs] at ht
  dsimp only at ht
  obtain rfl := (Option.some.injEq _ _).mp ht
  have hpct : ∀ i j : ℤ, ∀ v : ℤ, 100 ≤ v → i < j →
      pyRound ((v : ℚ) * ((i : ℚ) / 100)) < pyRound ((v : ℚ) * ((j : ℚ) / 100)) :=
    fun i j v hv hij => pyRound_hundredths_lt v i j hv hij
  have hcq : (20 : ℚ) < ((css_sec : ℤ) : ℚ) := by exact_mod_cast hc
  refine ⟨⟨rfl, rfl, rfl⟩,
    ⟨?_, ?_, ?_, ?_, ?_, ?_⟩, ⟨rfl, ?_, ?_, ?_, ?_, ?_, ?_, ?_⟩,
    ⟨rfl, ?_, ?_, ?_, ?_, ?_, ?_, ?_⟩, ⟨rfl, ?_, ?_, ?_, ?_⟩⟩
  · simp [hrZonesOf]
  · simp [hrZonesOf]
  · simp [powerZonesOf]
  · simp [powerZonesOf]
  · simp [paceZonesOf]
  · simp [paceZonesOf]
  · have := hpct 84 85 lthr hl (by norm_num); push_cast at this ⊢; exact this
  · have := hpct 85 89 lthr hl (by norm_num); push_cast at this ⊢; exact this
  · have := hpct 89 90 lthr hl (by norm_num); push_cast at this ⊢; exact this
  · have := hpct 90 94 lthr hl (by norm_num); push_cast at this ⊢; exact this
  · have := hpct 94 95 lthr hl (by norm_num); push_cast at this ⊢; exact this
  · have := hpct 95 99 lthr hl (by norm_num); push_cast at this ⊢; exact this
  · have := hpct 99 100 lthr hl (by norm_num); push_cast at this ⊢; exact this
  · have := hpct 55 56 ftp hf (by norm_num); push_cast at this ⊢; exact this
  · have := hpct 56 75 ftp hf (by norm_num); push_cast at this ⊢; exact this
  · have := hpct 75 76 ftp hf (by norm_num); push_cast at this ⊢; exact this
  · have := hpct 76 90 ftp hf (by norm_num); push_cast at this ⊢; exact this
  · have := hpct 90 91 ftp hf (by norm_num); push_cast at this ⊢; exact this
  · have := hpct 91 105 ftp hf (by norm_num); push_cast at this ⊢; exact this
  · have := hpct 105 106 ftp hf (by norm_num); push_cast at this ⊢; exact this
  · have e : ((css_sec : ℤ) : ℚ) * (100/100) = ((css_sec : ℤ) : ℚ) := by ring
    rw [e, pyRound_intCast]
  · have hle := le_pyRound (((css_sec : ℤ) : ℚ) * (105/100))
    have : ((css_sec : ℤ) : ℚ) < ((pyRound (((css_sec : ℤ) : ℚ) * (105/100)) : ℤ) : ℚ) := by
      linarith
    exact_mod_cast this
  · apply pyRound_lt_pyRound
    linarith
  · apply pyRound_lt_pyRound
    linarith

/-- Claim C7 (counterexample): at the canonical inputs (ftp 200, lthr 155,
css "5:00", so css_sec = 300) the pace table's Z3 spans 5:30 (slow bound,
330s) to 5:00 (fast bound, 300s) while Z4 spans 5:15 (315s) to 5:00: Z4's
slow bound lies strictly between Z3's bounds (300 < 315 < 330), so the Z3
and Z4 pace ranges overlap — the zone tables are not "monotonically
non-overlapping" as the claim states. -/
theorem compute_zones_pace_overlap_counterexample :
    (compute_zones_math 200 155 "5:00").map (fun t => t.pace_zones.lookup "Z3") =
        some (some ⟨"Tempo", some "5:30", some "5:00"⟩) ∧
      (compute_zones_math 200 155 "5:00").map (fun t => t.pace_zones.lookup "Z4") =
        some (some ⟨"Threshold", some "5:15", some "5:00"⟩) ∧
      _parse_pace_to_seconds "5:00" = some 300 ∧
      _parse_pace_to_seconds "5:15" = some 315 ∧
      _parse_pace_to_seconds "5:30" = some 330 ∧
      ((300 : ℤ) < 315 ∧ (315 : ℤ) < 330) := by
  with_unfolding_all decide

/-- Witness for the amended C7 at ftp 300, lthr 160, css "5:00". -/
theorem compute_zones_tables_witness :
    ((compute_zones_math 300 160 "5:00").getD default).hr_zones.map Prod.fst =
        ["Z1", "Z2", "Z3", "Z4", "Z5"] ∧
      ((compute_zones_math 300 160 "5:00").getD default).power_zones.map Prod.fst =
        ["Z1", "Z2", "Z3", "Z4", "Z5"] ∧
      ((compute_zones_math 300 160 "5:00").getD default).pace_zones.map Prod.fst =
        ["Z1", "Z2", "Z3", "Z4", "Z5"] :=
  (compute_zones_tables 300 160 "5:00" ((compute_zones_math 300 160 "5:00").getD default) 300
    (by with_unfolding_all decide) (by decide) (by decide) (by with_unfolding_all decide)
    (by decide)).1

theorem parse_pace_none_iff (p : String) :
    _parse_pace_to_seconds p = none ↔
      ¬ ∃ a b mi se, p.trim.splitOn ":" = [a, b] ∧ pyInt a = some mi ∧ pyInt b = some se := by
  unfold _parse_pace_to_seconds
  dsimp only
  rcases hsp : p.trim.splitOn ":" with _ | ⟨a, _ | ⟨b, _ | ⟨c, rest⟩⟩⟩ <;>
    simp only [hsp]
  · simp
  · simp
  · cases hpa : pyInt a <;> cases hpb : pyInt b <;> simp [hpa, hpb]
  · simp

/-- Claim C10 (amended): for a non-blank pace string, `compute_zones_math`
raises the input-format error if and only if the stripped string does not
split on ":" into exactly two fields each parseable by Python's `int()`.
`int()` accepts signs, so negative components are NOT rejected: "5:-30"
parses to 270 seconds and produces zone tables (see the counterexample). -/
theorem compute_zones_error_iff (ftp lthr : ℤ) (css : String)
    (h1 : css ≠ "") (h2 : css.trim ≠ "") :
    (compute_zones_math ftp lthr css = none ↔
      ¬ ∃ a b mi se, css.trim.splitOn ":" = [a, b] ∧
        pyInt a = some mi ∧ pyInt b = some se) := by
  unfold compute_zones_math
  dsimp only
  rw [if_neg (not_or.mpr ⟨h1, h2⟩)]
  rw [← parse_pace_none_iff]
  cases h : _parse_pace_to_seconds css <;> simp [h]

/-- Witness for the amended C10 at the pace string "5:-30". -/
theorem compute_zones_error_iff_witness :
    (compute_zones_math 200 155 "5:-30" = none ↔
      ¬ ∃ a b mi se, ("5:-30").trim.splitOn ":" = [a, b] ∧
        pyInt a = some mi ∧ pyInt b = some se) :=
  compute_zones_error_iff 200 155 "5:-30" (by decide) (by with_unfolding_all decide)

/-- Claim C10 (counterexample): the pace string "5:-30" contains a negative
component, yet it is NOT rejected: Python's `int()` parses "-30", the pace
parses to 5*60 + (-30) = 270 seconds, and `compute_zones_math` returns zone
tables instead of raising an input-format error. -/
theorem compute_zones_negative_pace_counterexample :
    _parse_pace_to_seconds "5:-30" = some 270 ∧
      (compute_zones_math 200 155 "5:-30").isSome = true := by
  with_unfolding_all decide

end ThryveIQ
